import Mathlib

/-!
Verification of the falling-block game core (Tapioca / PyoroLike variants).

The source is C++ on top of the Siv3D framework.  The per-tick simulation
logic is embedded shallowly:

* `double` coordinates are modelled by `ℚ`.  Every constant of the game
  (gravity 1.5, fall speed 3, block size 50, player speed 8 resp. 10,
  projectile speed 20, window 400x600, floor height 80 resp. 10) is a small
  dyadic rational, and all operations performed on them by the code are
  additions, subtractions, multiplications and comparisons, which are exact
  in binary64 in the ranges exercised here, so `ℚ` is a faithful model.
* Real-time devices (the fire-cooldown `Timer`, the explosion `Animation`
  timer, key states) are time- or user-driven; their per-tick observations
  are passed as oracle inputs (`Bool` fields of `Inputs`, the `fired`
  argument of `eggUpdate`).
* The primary embedding follows the richer Tapioca variant
  (src/Tapioca/Main.cpp, first translation unit); where a claim cites the
  PyoroLike variant the relevant routine is embedded separately
  (`horizStepP`).
-/

attribute [local semireducible] Rat.add Rat.sub Rat.mul Rat.inv

namespace Tapioca

/-- Axis-aligned rectangle, top-left anchored, as Siv3D `RectF`. -/
structure Rect where
  x : ℚ
  y : ℚ
  w : ℚ
  h : ℚ
  deriving DecidableEq, Repr

/-- Siv3D `RectF::intersects` / `Intersect(a, b)`: strict overlap of the
open rectangles (rectangles merely sharing an edge do not intersect). -/
def Rect.intersectsb (a b : Rect) : Bool :=
  decide (a.x < b.x + b.w) && decide (b.x < a.x + a.w) &&
  decide (a.y < b.y + b.h) && decide (b.y < a.y + a.h)

/-- Constant `constexpr double gravity = 1.5;` (Tapioca). -/
def gravity : ℚ := 3 / 2

/-- Constant `constexpr double floorHeight = 80;` (Tapioca richer variant). -/
def floorHeightT : ℚ := 80

/-- Constant `Block::fallingSpeed = 3.0`. -/
def fallingSpeed : ℚ := 3

/-- Constant `Block::size = 50.0`. -/
def blockSize : ℚ := 50

/-- A falling block.  The C++ `speed` member is omitted: `Block::update`
overwrites it with `fallingSpeed` before every use, and the richer variant's
player reads the static `Block::fallingSpeed`, never the member. -/
structure Block where
  rect : Rect
  destroyed : Bool
  moving : Bool
  touchingTop : Bool
  deriving DecidableEq, Repr

/-- Predicate `Block::willCollide`, with the rectangles of the *other* blocks (the
C++ loop skips `this` by address) passed in by the caller.  `H` is
`Window::Height()`, `fH` the floor height. -/
def willCollide (H fH : ℚ) (r : Rect) (others : List Rect) : Bool :=
  decide (r.y + r.h + fallingSpeed > H - fH) ||
  others.any (fun o => Rect.intersectsb { r with y := r.y + fallingSpeed } o)

/-- Transition `Block::update`: set `speed = fallingSpeed`; if `willCollide`, flag
`touchingTop` when `rect.y <= 0`, stop; else fall by `speed`. -/
def Block.update (H fH : ℚ) (b : Block) (others : List Rect) : Block :=
  if willCollide H fH b.rect others then
    { b with
      touchingTop := b.touchingTop || decide (b.rect.y ≤ 0),
      moving := false }
  else
    { b with moving := true, rect := { b.rect with y := b.rect.y + fallingSpeed } }

/-- The stopped outcome of `Block.update` (the branch taken when
`willCollide` holds): position kept, `moving` cleared, `touchingTop`
latched when the top edge is at or above `y = 0`. -/
def stopBlock (b : Block) : Block :=
  { b with
    touchingTop := b.touchingTop || decide (b.rect.y ≤ 0),
    moving := false }

/-- The sequential in-place loop of `Playing::update`
(`for (auto& block : blocks) block.update(blocks);`): the block at hand is
tested against the already-updated blocks before it (`done`) and the
not-yet-updated blocks after it (`todo`'s tail). -/
def updateBlocksGo (H fH : ℚ) (done todo : List Block) : List Block :=
  match todo with
  | [] => done
  | b :: rest =>
      updateBlocksGo H fH
        (done ++ [Block.update H fH b ((done ++ rest).map Block.rect)]) rest

/-- One tick of the block-column loop as the code runs it. -/
def updateBlocksSeq (H fH : ℚ) (bs : List Block) : List Block :=
  updateBlocksGo H fH [] bs

/-- Modelled from the spec: the *simultaneous* update, in which every
block's collision test uses the snapshot of all blocks' rectangles taken
at the start of the tick (`pre` holds the original, un-updated prefix). -/
def updateBlocksSimGo (H fH : ℚ) (pre todo : List Block) : List Block :=
  match todo with
  | [] => []
  | b :: rest =>
      Block.update H fH b ((pre ++ rest).map Block.rect) ::
        updateBlocksSimGo H fH (pre ++ [b]) rest

/-- Modelled from the spec: simultaneous snapshot update of the block list. -/
def updateBlocksSim (H fH : ℚ) (bs : List Block) : List Block :=
  updateBlocksSimGo H fH [] bs

/-- Filtering `std::remove_if`/`erase` of destroyed blocks at the end of
`Playing::update`, order-preserving. -/
def removeDestroyed (bs : List Block) : List Block :=
  bs.filter (fun b => !b.destroyed)

/-- Constant `Egg::speed = 20.0`. -/
def eggSpeed : ℚ := 20

/-- Constant `Egg::size = 50.0`. -/
def eggSize : ℚ := 50

/-- Observable state of the egg's non-looping two-frame explosion
`Animation`.  The animation's `Timer` is real-time; `animUpdate` consumes
the per-tick observation `fired = timer.reachedZero()` as an oracle.
`finished` merges `started = false ∧ idx = last ∧ timer.reachedZero()`,
which is how `Animation::isFinished` reports completion. -/
inductive EggAnim
  | notStarted
  | running (idx : ℕ)
  | finished
  deriving DecidableEq, Repr

/-- Step `Animation::update` for the explosion animation (2 frames, not
looped).  A never-started animation's timer is not running, so the update
is a no-op; on the last frame's timer event the animation completes. -/
def animUpdate (fired : Bool) : EggAnim → EggAnim
  | EggAnim.notStarted => EggAnim.notStarted
  | EggAnim.running idx =>
      if fired then
        if idx < 1 then EggAnim.running (idx + 1) else EggAnim.finished
      else EggAnim.running idx
  | EggAnim.finished => EggAnim.finished

/-- Query `Animation::isFinished` for the explosion animation. -/
def animIsFinished : EggAnim → Bool
  | EggAnim.finished => true
  | _ => false

/-- Query `Animation::isStarted` for the explosion animation. -/
def animIsStarted : EggAnim → Bool
  | EggAnim.running _ => true
  | _ => false

/-- The player's projectile (`Egg` in the richer Tapioca variant). -/
structure Egg where
  rect : Rect
  vx : ℚ
  vy : ℚ
  destroyed : Bool
  anim : EggAnim
  deriving DecidableEq, Repr

/-- Constructor `Egg::Egg(Vec2 pos, bool right)`: rectangle anchored at
`pos - (size/2, size/4)`, velocity `(±speed, -speed)`. -/
def spawnEgg (posX posY : ℚ) (right : Bool) : Egg :=
  { rect := ⟨posX - eggSize / 2, posY - eggSize / 4, eggSize, eggSize⟩,
    vx := if right then eggSpeed else -eggSpeed,
    vy := -eggSpeed,
    destroyed := false,
    anim := EggAnim.notStarted }

/-- The block-hit loop of `Egg::update`: mark the first block whose
rectangle intersects `r` as destroyed (`block.destroy()`), leaving all
other blocks untouched; `none` when no block intersects.  The scoring
callback installed on Tapioca blocks is handled by `destroyCallback`. -/
def destroyFirst (r : Rect) : List Block → Option (List Block)
  | [] => none
  | b :: bs =>
      if Rect.intersectsb r b.rect then some ({ b with destroyed := true } :: bs)
      else (destroyFirst r bs).map (b :: ·)

/-- Transition `Egg::update(blocks)`: advance the explosion animation; a finished
explosion destroys the egg; a started explosion freezes it; otherwise test
the horizontal screen bounds, then the blocks (first hit destroys that
block and starts the explosion), and only if none of these fire apply
gravity and move.  `W` is `Window::Width()`, `fired` the animation timer
oracle. -/
def eggUpdate (fired : Bool) (W : ℚ) (e : Egg) (blocks : List Block) :
    Egg × List Block :=
  let e := { e with anim := animUpdate fired e.anim }
  if animIsFinished e.anim then ({ e with destroyed := true }, blocks)
  else if animIsStarted e.anim then (e, blocks)
  else if decide (e.rect.x + e.rect.w ≤ 0) || decide (e.rect.x > W) then
    ({ e with anim := EggAnim.running 0 }, blocks)
  else
    match destroyFirst e.rect blocks with
    | some blocks' => ({ e with anim := EggAnim.running 0 }, blocks')
    | none =>
        ({ e with
            vy := e.vy + gravity,
            rect := { e.rect with
                        x := e.rect.x + e.vx,
                        y := e.rect.y + (e.vy + gravity) } }, blocks)

/-- Constant `Player::size = Size(40, 70)`, the width. -/
def playerW : ℚ := 40

/-- Constant `Player::size = Size(40, 70)`, the height. -/
def playerH : ℚ := 70

/-- Constant `Player::speed = 8` (richer Tapioca variant). -/
def playerSpeed : ℚ := 8

/-- Constant `constexpr double jumpSpeed = 20.0`. -/
def jumpSpeed : ℚ := 20

/-- Player state of the richer Tapioca variant.  The fire-cooldown
`eggLaunchTimer` is real-time and appears as the per-tick oracle
`Inputs.eggTimerZero`. -/
structure Player where
  rect : Rect
  vy : ℚ
  grounded : Bool
  facingRight : Bool
  dead : Bool
  egg : Option Egg
  deriving DecidableEq, Repr

/-- Constructor `Player::Player()`: resting on the floor at `x = 100`. -/
def playerInit (H fH : ℚ) : Player :=
  { rect := ⟨100, H - fH - playerH, playerW, playerH⟩,
    vy := 0, grounded := false, facingRight := true, dead := false,
    egg := none }

/-- Per-tick observations of the input devices and of the real-time
timers consumed by `Player::update`. -/
structure Inputs where
  keyZ : Bool
  keyLeft : Bool
  keyRight : Bool
  keyUp : Bool
  eggTimerZero : Bool
  animFired : Bool
  deriving DecidableEq, Repr

/-- The horizontal step of the richer Tapioca `Player::update`
(the `KeyLeft.pressed() ^ KeyRight.pressed()` branch): facing follows the
pressed key, edge-of-screen presses are dropped, and the proposed
rectangle is tested against every block — any intersection zeroes `vx`
before the move commits. -/
def horizStepT (W : ℚ) (keyL keyR : Bool) (blocks : List Block)
    (r : Rect) (facing : Bool) : Rect × Bool :=
  if keyL ^^ keyR then
    let facing' := keyR
    let left := keyL && decide (r.x > 0)
    let right := keyR && decide (r.x + r.w < W)
    if left ^^ right then
      let vx : ℚ := if left then -playerSpeed else playerSpeed
      let vx :=
        if blocks.any (fun b => Rect.intersectsb { r with x := r.x + vx } b.rect)
        then 0 else vx
      ({ r with x := r.x + vx }, facing')
    else (r, facing')
  else (r, facing)

/-- The jump / gravity / vertical-collision / floor / commit sequence of
the richer Tapioca `Player::update` (steps between the horizontal move and
the death check).  Returns the new rectangle, vertical velocity and
grounded flag. -/
def vertStep (H fH : ℚ) (keyUp : Bool) (blocks : List Block)
    (r : Rect) (vy : ℚ) (grounded : Bool) : Rect × ℚ × Bool :=
  let vyJ := if grounded && keyUp then -jumpSpeed else vy
  let groundedJ := if grounded && keyUp then false else grounded
  let vy1 := vyJ + gravity
  let hit := blocks.find? (fun b =>
    Rect.intersectsb { r with y := r.y + vy1 } b.rect)
  let vy2 :=
    match hit with
    | some b => if b.moving then fallingSpeed else 0
    | none => vy1
  let touching : Bool :=
    match hit with
    | some b => if b.moving then decide (vy1 > 0) else true
    | none => false
  let grounded2 := groundedJ || touching
  let vy3 := if !touching && decide (r.y + r.h + vy2 > H - fH) then 0 else vy2
  let grounded3 := if !touching && decide (r.y + r.h + vy2 > H - fH) then true else grounded2
  ({ r with y := r.y + vy3 }, vy3, grounded3)

/-- Transition `Player::update(blocks)` of the richer Tapioca variant: fire
(`KeyZ.down() && eggLaunchTimer.reachedZero()` spawns an egg at the
player's top-center), update the egg (dropping it once destroyed),
horizontal step, vertical step, death check (grounded and overlapped by a
moving block). -/
def playerUpdate (W H fH : ℚ) (inp : Inputs) (p : Player)
    (blocks : List Block) : Player × List Block :=
  let p :=
    if inp.keyZ && inp.eggTimerZero then
      { p with egg := some (spawnEgg (p.rect.x + p.rect.w / 2) p.rect.y p.facingRight) }
    else p
  let s1 : Player × List Block :=
    match p.egg with
    | some e =>
        let eb := eggUpdate inp.animFired W e blocks
        ({ p with egg := if eb.1.destroyed then none else some eb.1 }, eb.2)
    | none => (p, blocks)
  let p := s1.1
  let blocks := s1.2
  let rf := horizStepT W inp.keyLeft inp.keyRight blocks p.rect p.facingRight
  let p := { p with rect := rf.1, facingRight := rf.2 }
  let rvg := vertStep H fH inp.keyUp blocks p.rect p.vy p.grounded
  let p := { p with rect := rvg.1, vy := rvg.2.1, grounded := rvg.2.2 }
  let dead := p.dead ||
    (p.grounded && blocks.any (fun b => b.moving && Rect.intersectsb p.rect b.rect))
  ({ p with dead := dead }, blocks)

/-- Conversion `static_cast<int>` of a `double`: truncation toward zero. -/
def ratTrunc (q : ℚ) : ℤ :=
  if 0 ≤ q then ⌊q⌋ else ⌈q⌉

/-- The score increment of the hit callback installed in
`Playing::update`: `static_cast<int>(100.0 * height)` with
`height = 1 - rect.y / Window::Height()` supplied by `Block::destroy`. -/
def scoreDelta (H y : ℚ) : ℤ :=
  ratTrunc (100 * (1 - y / H))

/-- The hit callback of `Playing::update`:
`score += static_cast<int>(100.0 * height); highScore = max(score, highScore)`. -/
def destroyCallback (H y : ℚ) (score highScore : ℤ) : ℤ × ℤ :=
  let s := score + scoreDelta H y
  (s, max s highScore)

/-- Scene identifiers of the `SceneManager` state machine. -/
inductive SceneId
  | title
  | playing
  | gameOver
  deriving DecidableEq, Repr

/-- Shared scene data (`struct Data`) of the richer Tapioca variant,
restricted to the simulation fields. -/
structure GameData where
  score : ℤ
  highScore : ℤ
  player : Player
  blocks : List Block
  deriving DecidableEq, Repr

/-- Constructor `Playing::Playing(const InitData&)`: entering the Playing scene resets
the score to 0, the player to its initial state and the block list to
empty (the high score is untouched). -/
def enterPlaying (H fH : ℚ) (d : GameData) : GameData :=
  { d with score := 0, player := playerInit H fH, blocks := [] }

/-- Transition `GameOver::update`: `KeyR.down()` switches to the Playing scene, whose
constructor then performs the reset; otherwise stay. -/
def gameOverUpdate (keyR : Bool) (H fH : ℚ) (d : GameData) : SceneId × GameData :=
  if keyR then (SceneId.playing, enterPlaying H fH d) else (SceneId.gameOver, d)

end Tapioca

namespace PyoroLike

/-- Constant `Player::SPEED = 10` (PyoroLike variant). -/
def playerSpeed : ℚ := 10

/-- The horizontal step of the PyoroLike `Player::update`
(src/PyoroLike/Main.cpp, first translation unit, lines 113-136): unlike
the Tapioca variant, a block that already intersects the *current*
rectangle is exempted from the veto
(`!block.intersects(rect) && block.intersects(nextRect)`). -/
def horizStepP (W : ℚ) (keyL keyR : Bool) (blocks : List Tapioca.Block)
    (r : Tapioca.Rect) (facing : Bool) : Tapioca.Rect × Bool :=
  let left := keyL && decide (r.x > 0)
  let right := keyR && decide (r.x + r.w < W)
  let vx0 : ℚ :=
    if left ^^ right then (if left then -playerSpeed else playerSpeed) else 0
  let facing' :=
    if left ^^ right then (if left then false else true) else facing
  let vx :=
    if blocks.any (fun b =>
        !Tapioca.Rect.intersectsb r b.rect &&
        Tapioca.Rect.intersectsb { r with x := r.x + vx0 } b.rect)
    then 0 else vx0
  ({ r with x := r.x + vx }, facing')

end PyoroLike

namespace Tapioca

/-! ## Block-level lemmas -/

/-- Semantic reading of `willCollide`: the next position crosses the floor
line or intersects one of the other rectangles. -/
theorem willCollide_iff (H fH : ℚ) (r : Rect) (others : List Rect) :
    willCollide H fH r others = true ↔
      (H - fH < r.y + r.h + fallingSpeed ∨
        ∃ o ∈ others,
          Rect.intersectsb { r with y := r.y + fallingSpeed } o = true) := by
  simp [willCollide, List.any_eq_true, gt_iff_lt]

/-- Rectangles are untouched by the stopping branch. -/
theorem stopBlock_rect (b : Block) : (stopBlock b).rect = b.rect := rfl

/-- When the collision test holds, `Block.update` is the stopping branch. -/
theorem blockUpdate_of_collide {H fH : ℚ} {b : Block} {others : List Rect}
    (h : willCollide H fH b.rect others = true) :
    Block.update H fH b others = stopBlock b := by
  simp [Block.update, h, stopBlock]

/-- C4: a block transitions to `Stopped` in a tick iff its next position
(current position plus fall speed) would cross the floor line or intersect
another block's rectangle, and (for a block not already flagged) it flags
`touchingTop` iff it stopped with its top edge at or above `y = 0`. -/
theorem block_stop_iff (H fH : ℚ) (b : Block) (others : List Rect)
    (htt : b.touchingTop = false) :
    ((Block.update H fH b others).moving = false ↔
      (H - fH < b.rect.y + b.rect.h + fallingSpeed ∨
        ∃ o ∈ others,
          Rect.intersectsb { b.rect with y := b.rect.y + fallingSpeed } o = true)) ∧
    ((Block.update H fH b others).touchingTop = true ↔
      ((Block.update H fH b others).moving = false ∧ b.rect.y ≤ 0)) := by
  rw [← willCollide_iff]
  by_cases hw : willCollide H fH b.rect others = true
  · simp [Block.update, hw, htt]
  · simp [Block.update, hw, htt]

/-- C4 witness: a block one fall-step above the floor stops and, being
below the top line, does not flag `touchingTop`. -/
theorem block_stop_iff_witness :
    (false : Bool) = false ∧
    (((Block.update 600 80 ⟨⟨0, 470, 50, 50⟩, false, true, false⟩ []).moving = false ↔
      ((600 : ℚ) - 80 < 470 + 50 + fallingSpeed ∨
        ∃ o ∈ ([] : List Rect),
          Rect.intersectsb { Rect.mk 0 470 50 50 with y := 470 + fallingSpeed } o = true)) ∧
    ((Block.update 600 80 ⟨⟨0, 470, 50, 50⟩, false, true, false⟩ []).touchingTop = true ↔
      ((Block.update 600 80 ⟨⟨0, 470, 50, 50⟩, false, true, false⟩ []).moving = false ∧
        (470 : ℚ) ≤ 0))) :=
  ⟨rfl, block_stop_iff 600 80 ⟨⟨0, 470, 50, 50⟩, false, true, false⟩ [] rfl⟩

/-- C3 (amended): in every tick a block either keeps its exact rectangle
and is flagged stopped, or moves down by the fall speed and is flagged
moving — so its y-position never decreases, and it is frozen exactly in
the ticks whose collision test holds; stopping is not permanent state:
the test is re-evaluated from scratch every tick. -/
theorem block_freeze_or_fall (H fH : ℚ) (b : Block) (others : List Rect) :
    ((Block.update H fH b others).rect = b.rect ∧
      (Block.update H fH b others).moving = false) ∨
    ((Block.update H fH b others).rect =
        { b.rect with y := b.rect.y + fallingSpeed } ∧
      (Block.update H fH b others).moving = true) := by
  by_cases hw : willCollide H fH b.rect others = true
  · left; simp [Block.update, hw]
  · right; simp [Block.update, hw]

/-- A block destroyed while supporting a stopped block: the stopped block
(at rest on it, collision test true) resumes falling after the destroyed
support is filtered out — refuting that `Stopped` is terminal. -/
def blockC3lower : Block := ⟨⟨0, 470, 50, 50⟩, true, false, false⟩

/-- The upper block of the C3 scenario, stopped at rest on `blockC3lower`. -/
def blockC3upper : Block := ⟨⟨0, 418, 50, 50⟩, false, false, false⟩

/-- C3 counterexample: `blockC3upper` is stopped (`moving = false`) and its
collision test against its support holds, but once the destroyed support is
removed the very next tick moves it down by the fall speed and re-flags it
`moving` — a `Stopped` block re-enters `Falling` after its support is
destroyed, contradicting the claim. -/
theorem block_stopped_not_terminal :
    blockC3upper.moving = false ∧
    willCollide 600 80 blockC3upper.rect [blockC3lower.rect] = true ∧
    updateBlocksSeq 600 80 (removeDestroyed [blockC3lower, blockC3upper]) =
      [{ blockC3upper with moving := true, rect := ⟨0, 421, 50, 50⟩ }] := by
  decide

/-! ## C1: sequential loop vs simultaneous snapshot update -/

/-- The two C1 counterexample blocks: the later-listed block is one
fall-step short of landing on the earlier-listed one, which itself still
falls and moves out of the way mid-loop. -/
def blockC1a : Block := ⟨⟨0, 100, 50, 50⟩, false, true, false⟩

/-- The later-listed block of the C1 counterexample. -/
def blockC1b : Block := ⟨⟨0, 48, 50, 50⟩, false, true, false⟩

/-- C1 counterexample: the in-place sequential loop and the simultaneous
snapshot update disagree on a two-block list — sequentially, the first
block falls out of the way before the second is tested, so the second
falls too; simultaneously, the second stops on the first's last-frame
rectangle. -/
theorem seq_ne_sim :
    updateBlocksSeq 600 80 [blockC1a, blockC1b] ≠
      updateBlocksSim 600 80 [blockC1a, blockC1b] := by
  decide

/-- Under the all-stop hypothesis, the simultaneous update stops every
block in place. -/
theorem simGo_allStop (H fH : ℚ) (L : List Block)
    (hstop : ∀ pre b rest, L = pre ++ b :: rest →
      willCollide H fH b.rect ((pre ++ rest).map Block.rect) = true) :
    ∀ todo pre, pre ++ todo = L →
      updateBlocksSimGo H fH pre todo = todo.map stopBlock := by
  intro todo
  induction todo with
  | nil => intro pre _; rfl
  | cons b rest ih =>
      intro pre h
      rw [updateBlocksSimGo, blockUpdate_of_collide (hstop pre b rest h.symm),
        List.map_cons, ih (pre ++ [b]) (by simpa using h)]

/-- Mapping `stopBlock` over a prefix does not change its rectangles. -/
theorem map_rect_map_stopBlock (l : List Block) :
    (l.map stopBlock).map Block.rect = l.map Block.rect := by
  rw [List.map_map]
  rfl

/-- Under the all-stop hypothesis, the sequential loop also stops every
block in place: the already-updated prefix has unchanged rectangles, so
each collision test agrees with the snapshot test. -/
theorem seqGo_allStop (H fH : ℚ) (L : List Block)
    (hstop : ∀ pre b rest, L = pre ++ b :: rest →
      willCollide H fH b.rect ((pre ++ rest).map Block.rect) = true) :
    ∀ todo pre, pre ++ todo = L →
      updateBlocksGo H fH (pre.map stopBlock) todo = (pre ++ todo).map stopBlock := by
  intro todo
  induction todo with
  | nil => intro pre h; simp [updateBlocksGo]
  | cons b rest ih =>
      intro pre h
      have hrects : ((pre.map stopBlock ++ rest).map Block.rect) =
          ((pre ++ rest).map Block.rect) := by
        rw [List.map_append, List.map_append, map_rect_map_stopBlock]
      rw [updateBlocksGo, hrects, blockUpdate_of_collide (hstop pre b rest h.symm)]
      have hdone : pre.map stopBlock ++ [stopBlock b] = (pre ++ [b]).map stopBlock := by
        rw [List.map_append]
        rfl
      rw [hdone, ih (pre ++ [b]) (by simpa using h)]
      simp

/-- C1 (amended): the sequential in-place loop tests each block against the
already-updated rectangles of earlier-listed blocks and the last-frame
rectangles of later-listed blocks, so it is not in general the simultaneous
snapshot update; the two agree in any tick in which every block's collision
test holds against the start-of-tick snapshot (no rectangle changes). -/
theorem seq_eq_sim_of_allStop (H fH : ℚ) (bs : List Block)
    (hstop : ∀ pre b rest, bs = pre ++ b :: rest →
      willCollide H fH b.rect ((pre ++ rest).map Block.rect) = true) :
    updateBlocksSeq H fH bs = updateBlocksSim H fH bs := by
  have h1 := seqGo_allStop H fH bs hstop bs [] rfl
  have h2 := simGo_allStop H fH bs hstop bs [] rfl
  rw [updateBlocksSeq, updateBlocksSim, h2]
  simpa using h1

/-- Lower block of the C1 witness stack, resting on the floor. -/
def blockC1w1 : Block := ⟨⟨0, 470, 50, 50⟩, false, false, false⟩

/-- Upper block of the C1 witness stack, resting on `blockC1w1`. -/
def blockC1w2 : Block := ⟨⟨0, 418, 50, 50⟩, false, false, false⟩

/-- C1 witness: on a fully settled two-block stack every collision test
holds, and the sequential loop agrees with the simultaneous update. -/
theorem seq_eq_sim_of_allStop_witness :
    (∀ pre b rest, ([blockC1w1, blockC1w2] : List Block) = pre ++ b :: rest →
      willCollide 600 80 b.rect ((pre ++ rest).map Block.rect) = true) ∧
    updateBlocksSeq 600 80 [blockC1w1, blockC1w2] =
      updateBlocksSim 600 80 [blockC1w1, blockC1w2] := by
  have hstop : ∀ pre b rest, ([blockC1w1, blockC1w2] : List Block) = pre ++ b :: rest →
      willCollide 600 80 b.rect ((pre ++ rest).map Block.rect) = true := by
    intro pre b rest h
    match pre with
    | [] =>
        rw [List.nil_append] at h
        obtain ⟨rfl, rfl⟩ := List.cons.inj h
        decide
    | [x] =>
        rw [List.cons_append, List.nil_append] at h
        obtain ⟨rfl, h2⟩ := List.cons.inj h
        obtain ⟨rfl, rfl⟩ := List.cons.inj h2
        decide
    | x :: y :: t =>
        exfalso
        have hl := congrArg List.length h
        simp [List.length_append] at hl
  exact ⟨hstop, seq_eq_sim_of_allStop 600 80 _ hstop⟩

/-! ## C5: projectile single hit -/

/-- The block-hit loop marks exactly the first intersecting block. -/
theorem destroyFirst_append (r : Rect) (pre : List Block) (b : Block)
    (post : List Block)
    (hpre : ∀ b' ∈ pre, Rect.intersectsb r b'.rect = false)
    (hb : Rect.intersectsb r b.rect = true) :
    destroyFirst r (pre ++ b :: post) =
      some (pre ++ { b with destroyed := true } :: post) := by
  induction pre with
  | nil => simp [destroyFirst, hb]
  | cons a pre ih =>
      have ha := hpre a (List.mem_cons_self a pre)
      simp [destroyFirst, ha,
        ih (fun b' hmem => hpre b' (List.mem_cons_of_mem a hmem))]

/-- C5: in a tick in which a flying (explosion not yet started), on-screen
projectile intersects at least one block, exactly the first intersecting
block in stored order is marked destroyed, every other block is untouched,
and the projectile's flight ends in that same tick: its rectangle does not
move and its explosion starts, so it cannot hit a second block. -/
theorem egg_single_hit (fired : Bool) (W : ℚ) (e : Egg) (pre post : List Block)
    (b : Block)
    (hanim : e.anim = EggAnim.notStarted)
    (hleft : ¬(e.rect.x + e.rect.w ≤ 0))
    (hright : ¬(e.rect.x > W))
    (hpre : ∀ b' ∈ pre, Rect.intersectsb e.rect b'.rect = false)
    (hb : Rect.intersectsb e.rect b.rect = true) :
    eggUpdate fired W e (pre ++ b :: post) =
      ({ e with anim := EggAnim.running 0 },
        pre ++ { b with destroyed := true } :: post) := by
  have he : animUpdate fired e.anim = EggAnim.notStarted := by
    rw [hanim]; rfl
  simp [eggUpdate, he, animIsFinished, animIsStarted, hleft, hright,
    destroyFirst_append e.rect pre b post hpre hb]

/-- The C5 witness projectile, in flight over the blocks. -/
def eggC5 : Egg := ⟨⟨100, 100, 50, 50⟩, 20, -20, false, EggAnim.notStarted⟩

/-- A block the C5 witness projectile misses. -/
def blockC5pre : Block := ⟨⟨300, 300, 50, 50⟩, false, false, false⟩

/-- The first block the C5 witness projectile intersects. -/
def blockC5hit : Block := ⟨⟨120, 120, 50, 50⟩, false, true, false⟩

/-- A later block the C5 witness projectile also intersects but must not
destroy (single hit). -/
def blockC5post : Block := ⟨⟨120, 60, 50, 50⟩, false, true, false⟩

/-- C5 witness: the projectile destroys exactly the first intersecting
block even though a later block also intersects it. -/
theorem egg_single_hit_witness :
    (eggC5.anim = EggAnim.notStarted ∧
      Rect.intersectsb eggC5.rect blockC5hit.rect = true ∧
      Rect.intersectsb eggC5.rect blockC5post.rect = true) ∧
    eggUpdate false 400 eggC5 ([blockC5pre] ++ blockC5hit :: [blockC5post]) =
      ({ eggC5 with anim := EggAnim.running 0 },
        [blockC5pre] ++ { blockC5hit with destroyed := true } :: [blockC5post]) :=
  ⟨⟨rfl, by decide, by decide⟩,
    egg_single_hit false 400 eggC5 [blockC5pre] [blockC5post] blockC5hit rfl
      (by decide) (by decide) (by decide) (by decide)⟩

/-! ## C6: horizontal move all-or-nothing -/

/-- In the active move branch, the Tapioca horizontal step commits
`r.x + vx`, where `vx` is the proposed velocity zeroed when any block
intersects the proposed rectangle. -/
theorem horizT_result (W : ℚ) (keyL keyR : Bool) (blocks : List Block)
    (r : Rect) (f : Bool)
    (hk : (keyL ^^ keyR) = true)
    (hlr : ((keyL && decide (r.x > 0)) ^^ (keyR && decide (r.x + r.w < W))) = true) :
    (horizStepT W keyL keyR blocks r f).1 =
      { r with x := r.x +
          if (blocks.any fun b =>
              Rect.intersectsb
                { r with x := r.x +
                    if keyL && decide (r.x > 0) then -playerSpeed else playerSpeed }
                b.rect) then 0
          else if keyL && decide (r.x > 0) then -playerSpeed else playerSpeed } := by
  simp only [horizStepT]
  rw [if_pos hk, if_pos hlr]

/-- Outside the active move branch the Tapioca horizontal step leaves the
rectangle untouched. -/
theorem horizT_result_skip (W : ℚ) (keyL keyR : Bool) (blocks : List Block)
    (r : Rect) (f : Bool)
    (h : ¬((keyL ^^ keyR) = true ∧
      ((keyL && decide (r.x > 0)) ^^ (keyR && decide (r.x + r.w < W))) = true)) :
    (horizStepT W keyL keyR blocks r f).1 = r := by
  simp only [horizStepT]
  by_cases hk : (keyL ^^ keyR) = true
  · rw [if_pos hk, if_neg (fun hh => h ⟨hk, hh⟩)]
  · rw [if_neg hk]

/-- The player rectangle of the C6 counterexample, overlapping a block. -/
def rectC6 : Rect := ⟨0, 0, 50, 100⟩

/-- The block of the C6 counterexample: it overlaps the player's current
rectangle, so the PyoroLike guard exempts it from the veto. -/
def blockC6 : Block := ⟨⟨0, 0, 50, 50⟩, false, true, false⟩

/-- C6 counterexample: in the PyoroLike variant, pressing right while a
block overlaps both the current and the proposed rectangle applies the
full step anyway — the claim that any block intersecting the proposed
rectangle cancels the horizontal velocity entirely fails there. -/
theorem pyoro_step_despite_overlap :
    Rect.intersectsb { rectC6 with x := rectC6.x + PyoroLike.playerSpeed }
      blockC6.rect = true ∧
    (PyoroLike.horizStepP 400 false true [blockC6] rectC6 false).1.x =
      rectC6.x + PyoroLike.playerSpeed := by
  decide

/-- The PyoroLike horizontal step always commits `r.x + vx` with `vx` the
(possibly zeroed) proposed velocity. -/
theorem horizP_result (W : ℚ) (keyL keyR : Bool) (blocks : List Block)
    (r : Rect) (f : Bool) :
    (PyoroLike.horizStepP W keyL keyR blocks r f).1 =
      { r with x := r.x +
          if (blocks.any fun b =>
              !Rect.intersectsb r b.rect &&
              Rect.intersectsb
                { r with x := r.x +
                    (if ((keyL && decide (r.x > 0)) ^^ (keyR && decide (r.x + r.w < W)))
                     then (if keyL && decide (r.x > 0) then -PyoroLike.playerSpeed
                           else PyoroLike.playerSpeed)
                     else 0) }
                b.rect)
          then 0
          else (if ((keyL && decide (r.x > 0)) ^^ (keyR && decide (r.x + r.w < W)))
                then (if keyL && decide (r.x > 0) then -PyoroLike.playerSpeed
                      else PyoroLike.playerSpeed)
                else 0) } := rfl

/-- C6 (amended): in both variants the player's horizontal displacement is
all-or-nothing — the new x is the old x, or the old x shifted by the full
player speed; in the Tapioca variant a committed full step implies no
block intersects the moved rectangle and, within the active move branch,
the move is cancelled exactly when some block intersects the proposed
rectangle.  The PyoroLike variant exempts blocks already overlapping the
current rectangle from the veto, so for it only the all-or-nothing part
holds. -/
theorem horiz_all_or_nothing (W : ℚ) (keyL keyR : Bool) (blocks : List Block)
    (r : Rect) (f : Bool) :
    ((horizStepT W keyL keyR blocks r f).1.x = r.x ∨
      (((horizStepT W keyL keyR blocks r f).1.x = r.x - playerSpeed ∨
        (horizStepT W keyL keyR blocks r f).1.x = r.x + playerSpeed) ∧
        ∀ b ∈ blocks,
          Rect.intersectsb (horizStepT W keyL keyR blocks r f).1 b.rect = false)) ∧
    ((PyoroLike.horizStepP W keyL keyR blocks r f).1.x = r.x ∨
      (PyoroLike.horizStepP W keyL keyR blocks r f).1.x = r.x - PyoroLike.playerSpeed ∨
      (PyoroLike.horizStepP W keyL keyR blocks r f).1.x = r.x + PyoroLike.playerSpeed) ∧
    ((keyL ^^ keyR) = true →
      ((keyL && decide (r.x > 0)) ^^ (keyR && decide (r.x + r.w < W))) = true →
      ((horizStepT W keyL keyR blocks r f).1.x = r.x ↔
        ∃ b ∈ blocks,
          Rect.intersectsb
            { r with x := r.x +
                if keyL && decide (r.x > 0) then -playerSpeed else playerSpeed }
            b.rect = true)) := by
  refine ⟨?_, ?_, ?_⟩
  · by_cases hb : ((keyL ^^ keyR) = true ∧
        ((keyL && decide (r.x > 0)) ^^ (keyR && decide (r.x + r.w < W))) = true)
    · obtain ⟨hk, hlr⟩ := hb
      rw [horizT_result W keyL keyR blocks r f hk hlr]
      by_cases hany : (blocks.any fun b =>
          Rect.intersectsb
            { r with x := r.x +
                if keyL && decide (r.x > 0) then -playerSpeed else playerSpeed }
            b.rect) = true
      · left
        rw [if_pos hany]
        simp
      · right
        rw [if_neg hany]
        have hall : ∀ b ∈ blocks,
            Rect.intersectsb
              { r with x := r.x +
                  if keyL && decide (r.x > 0) then -playerSpeed else playerSpeed }
              b.rect = false := by
          intro b hbmem
          have hfalse : (blocks.any fun b =>
              Rect.intersectsb
                { r with x := r.x +
                    if keyL && decide (r.x > 0) then -playerSpeed else playerSpeed }
                b.rect) = false := by simpa using hany
          simpa using List.any_eq_false.mp hfalse b hbmem
        refine ⟨?_, hall⟩
        by_cases hlft : (keyL && decide (r.x > 0)) = true
        · left
          rw [if_pos hlft]
          show r.x + -playerSpeed = r.x - playerSpeed
          ring
        · right
          rw [if_neg hlft]
    · left
      rw [horizT_result_skip W keyL keyR blocks r f hb]
  · rw [horizP_result W keyL keyR blocks r f]
    by_cases hany : (blocks.any fun b =>
        !Rect.intersectsb r b.rect &&
        Rect.intersectsb
          { r with x := r.x +
              (if ((keyL && decide (r.x > 0)) ^^ (keyR && decide (r.x + r.w < W)))
               then (if keyL && decide (r.x > 0) then -PyoroLike.playerSpeed
                     else PyoroLike.playerSpeed)
               else 0) }
          b.rect) = true
    · left
      rw [if_pos hany]
      simp
    · rw [if_neg hany]
      by_cases hlr : ((keyL && decide (r.x > 0)) ^^ (keyR && decide (r.x + r.w < W))) = true
      · by_cases hlft : (keyL && decide (r.x > 0)) = true
        · right; left
          rw [if_pos hlr, if_pos hlft]
          show r.x + -PyoroLike.playerSpeed = r.x - PyoroLike.playerSpeed
          ring
        · right; right
          rw [if_pos hlr, if_neg hlft]
      · left
        rw [if_neg hlr]
        simp
  · intro hk hlr
    rw [horizT_result W keyL keyR blocks r f hk hlr]
    by_cases hany : (blocks.any fun b =>
        Rect.intersectsb
          { r with x := r.x +
              if keyL && decide (r.x > 0) then -playerSpeed else playerSpeed }
          b.rect) = true
    · rw [if_pos hany]
      rw [List.any_eq_true] at hany
      exact iff_of_true (by simp) hany
    · rw [if_neg hany]
      refine iff_of_false ?_ (fun hex => hany (List.any_eq_true.mpr hex))
      by_cases hlft : (keyL && decide (r.x > 0)) = true
      · rw [if_pos hlft]
        intro h
        have h2 : r.x + -playerSpeed = r.x := h
        have : -playerSpeed = (0 : ℚ) := by linarith
        norm_num [playerSpeed] at this
      · rw [if_neg hlft]
        intro h
        have h2 : r.x + playerSpeed = r.x := h
        have : playerSpeed = (0 : ℚ) := by linarith
        norm_num [playerSpeed] at this

/-! ## C7: scoring -/

/-- C7 counterexample: at block height y = 3 in a 600-high window the code
adds `static_cast<int>(100.0 * (1 - 3/600)) = trunc(99.5) = 99`, while
`round(100 * (1 - 3/600)) = round(99.5) = 100`: the score delta is the
truncation, not the rounding, of `100 * (1 - y / H)`. -/
theorem score_trunc_ne_round :
    scoreDelta 600 3 = 99 ∧ round ((100 : ℚ) * (1 - 3 / 600)) = 100 := by
  constructor
  · norm_num [scoreDelta, ratTrunc]
  · norm_num [round_eq]

/-- C7 (amended): on each block destruction the callback adds the
truncation toward zero of `100 * (1 - y / H)` to the score; for a block
inside the window (y ≤ H) this delta is non-negative, so the score never
decreases across a Playing session, and the callback re-establishes
`highScore = max(score, highScore)` after every update. -/
theorem score_callback_spec (H y : ℚ) (score highScore : ℤ)
    (hH : 0 < H) (hy : y ≤ H) :
    (destroyCallback H y score highScore).1 = score + scoreDelta H y ∧
    score ≤ (destroyCallback H y score highScore).1 ∧
    (destroyCallback H y score highScore).2 =
      max (destroyCallback H y score highScore).1 highScore := by
  have hq : (0 : ℚ) ≤ 100 * (1 - y / H) := by
    have h1 : y / H ≤ 1 := (div_le_one hH).mpr hy
    linarith
  have hd : 0 ≤ scoreDelta H y := by
    rw [scoreDelta, ratTrunc, if_pos hq]
    exact Int.floor_nonneg.mpr hq
  refine ⟨rfl, ?_, rfl⟩
  have : (destroyCallback H y score highScore).1 = score + scoreDelta H y := rfl
  rw [this]
  linarith

/-- C7 witness: destroying a block at y = 3 in a 600-high window with
score 0 and high score 50. -/
theorem score_callback_spec_witness :
    ((0 : ℚ) < 600 ∧ (3 : ℚ) ≤ 600) ∧
    ((destroyCallback 600 3 0 50).1 = 0 + scoreDelta 600 3 ∧
      0 ≤ (destroyCallback 600 3 0 50).1 ∧
      (destroyCallback 600 3 0 50).2 = max (destroyCallback 600 3 0 50).1 50) :=
  ⟨⟨by norm_num, by norm_num⟩,
    score_callback_spec 600 3 0 50 (by norm_num) (by norm_num)⟩

/-- C3 witness: the freeze-or-fall dichotomy evaluated on a falling block
over an empty list. -/
theorem block_freeze_or_fall_witness :
    ((Block.update 600 80 ⟨⟨0, 100, 50, 50⟩, false, true, false⟩ []).rect =
        (Rect.mk 0 100 50 50) ∧
      (Block.update 600 80 ⟨⟨0, 100, 50, 50⟩, false, true, false⟩ []).moving = false) ∨
    ((Block.update 600 80 ⟨⟨0, 100, 50, 50⟩, false, true, false⟩ []).rect =
        { Rect.mk 0 100 50 50 with y := (100 : ℚ) + fallingSpeed } ∧
      (Block.update 600 80 ⟨⟨0, 100, 50, 50⟩, false, true, false⟩ []).moving = true) :=
  block_freeze_or_fall 600 80 ⟨⟨0, 100, 50, 50⟩, false, true, false⟩ []

/-- C6 witness: the all-or-nothing characterization evaluated with the
right key pressed, no blocks, and the player mid-screen. -/
theorem horiz_all_or_nothing_witness :
    ((horizStepT 400 false true [] ⟨100, 450, 40, 70⟩ true).1.x = (100 : ℚ) ∨
      (((horizStepT 400 false true [] ⟨100, 450, 40, 70⟩ true).1.x =
          (100 : ℚ) - playerSpeed ∨
        (horizStepT 400 false true [] ⟨100, 450, 40, 70⟩ true).1.x =
          (100 : ℚ) + playerSpeed) ∧
        ∀ b ∈ ([] : List Block),
          Rect.intersectsb (horizStepT 400 false true [] ⟨100, 450, 40, 70⟩ true).1
            b.rect = false)) ∧
    ((PyoroLike.horizStepP 400 false true [] ⟨100, 450, 40, 70⟩ true).1.x = (100 : ℚ) ∨
      (PyoroLike.horizStepP 400 false true [] ⟨100, 450, 40, 70⟩ true).1.x =
        (100 : ℚ) - PyoroLike.playerSpeed ∨
      (PyoroLike.horizStepP 400 false true [] ⟨100, 450, 40, 70⟩ true).1.x =
        (100 : ℚ) + PyoroLike.playerSpeed) ∧
    ((false ^^ true) = true →
      ((false && decide ((100 : ℚ) > 0)) ^^
        (true && decide ((100 : ℚ) + 40 < 400))) = true →
      ((horizStepT 400 false true [] ⟨100, 450, 40, 70⟩ true).1.x = (100 : ℚ) ↔
        ∃ b ∈ ([] : List Block),
          Rect.intersectsb
            { Rect.mk 100 450 40 70 with x := (100 : ℚ) +
                (if false && decide ((100 : ℚ) > 0) then -playerSpeed else playerSpeed) }
            b.rect = true)) :=
  horiz_all_or_nothing 400 false true [] ⟨100, 450, 40, 70⟩ true

/-! ## C8: restart resets the Playing scene -/

/-- C8: on restart input the GameOver scene switches to Playing, and
entering Playing resets the score to 0, the player to its constructed
initial state and the block list to empty, leaving the high score intact;
without restart input the scene and data are unchanged. -/
theorem gameOver_restart (H fH : ℚ) (d : GameData) :
    gameOverUpdate true H fH d =
      (SceneId.playing,
        { d with score := 0, player := playerInit H fH, blocks := [] }) ∧
    (gameOverUpdate true H fH d).2.highScore = d.highScore ∧
    gameOverUpdate false H fH d = (SceneId.gameOver, d) :=
  ⟨rfl, rfl, rfl⟩

/-! ## C9: death check -/

/-- C9: in every tick, a not-yet-dead player ends the tick dead iff it is
grounded at the end of the tick and some moving block overlaps its
end-of-tick rectangle; overlap with a stationary block, or overlap while
not grounded, does not kill. -/
theorem player_death_iff (W H fH : ℚ) (inp : Inputs) (p : Player) (bs : List Block)
    (hd : p.dead = false) :
    ((playerUpdate W H fH inp p bs).1.dead = true ↔
      ((playerUpdate W H fH inp p bs).1.grounded = true ∧
        ∃ b ∈ (playerUpdate W H fH inp p bs).2, b.moving = true ∧
          Rect.intersectsb (playerUpdate W H fH inp p bs).1.rect b.rect = true)) := by
  cases hf : (inp.keyZ && inp.eggTimerZero) <;> cases hegg : p.egg <;>
    simp [playerUpdate, hf, hegg, hd, List.any_eq_true, Bool.and_eq_true]

/-- The C9 witness player, grounded on the floor. -/
def playerC9 : Player := ⟨⟨100, 450, 40, 70⟩, 0, true, true, false, none⟩

/-- A moving block overlapping the C9 witness player. -/
def blockC9 : Block := ⟨⟨100, 450, 50, 50⟩, false, true, false⟩

/-- No keys pressed, no timer events. -/
def inputsC9 : Inputs := ⟨false, false, false, false, false, false⟩

/-- C9 witness: the death characterization evaluated for a grounded player
overlapped by a moving block. -/
theorem player_death_iff_witness :
    playerC9.dead = false ∧
    ((playerUpdate 400 600 80 inputsC9 playerC9 [blockC9]).1.dead = true ↔
      ((playerUpdate 400 600 80 inputsC9 playerC9 [blockC9]).1.grounded = true ∧
        ∃ b ∈ (playerUpdate 400 600 80 inputsC9 playerC9 [blockC9]).2, b.moving = true ∧
          Rect.intersectsb (playerUpdate 400 600 80 inputsC9 playerC9 [blockC9]).1.rect
            b.rect = true)) :=
  ⟨rfl, player_death_iff 400 600 80 inputsC9 playerC9 [blockC9] rfl⟩

/-! ## C10: upward motion into a falling block -/

/-- The falling block the C10 counterexample player jumps into. -/
def blockC10 : Block := ⟨⟨100, 430, 50, 50⟩, false, true, false⟩

/-- The C10 counterexample player rectangle, resting on the floor. -/
def rectC10 : Rect := ⟨100, 450, 40, 70⟩

/-- C10 counterexample: a grounded player at the floor jumps into a
falling block (vertical velocity after jump and gravity is -18.5 ≤ 0, the
proposed move contacts the moving block), yet the tick ends with vy = 0,
`grounded = true` and zero displacement — the floor check overrides the
block fall speed, so the player is neither pushed downward nor left
ungrounded as the claim states. -/
theorem jump_into_block_at_floor :
    ((-jumpSpeed + gravity : ℚ) ≤ 0) ∧
    ([blockC10].find? (fun b' =>
        Rect.intersectsb { rectC10 with y := rectC10.y + (-jumpSpeed + gravity) } b'.rect)
      = some blockC10) ∧
    blockC10.moving = true ∧
    vertStep 600 80 true [blockC10] rectC10 0 true = (rectC10, 0, true) := by
  decide

/-- C10 (amended): when the proposed vertical move contacts a moving block
first and the post-gravity vertical velocity is ≤ 0, the contact sets the
velocity to the block fall speed without grounding the player; then, if
that downward step would cross the floor line, the floor check grounds the
player and zeroes the velocity (no displacement), and otherwise the player
is pushed down by the fall speed, ungrounded unless it was already
grounded and did not jump. -/
theorem vert_block_push (H fH : ℚ) (keyUp : Bool) (blocks : List Block)
    (r : Rect) (vy : ℚ) (grounded : Bool) (b : Block) (v1 : ℚ)
    (hv1 : v1 = (if grounded && keyUp then -jumpSpeed else vy) + gravity)
    (hle : v1 ≤ 0)
    (hfind : blocks.find? (fun b' =>
        Rect.intersectsb { r with y := r.y + v1 } b'.rect) = some b)
    (hmov : b.moving = true) :
    vertStep H fH keyUp blocks r vy grounded =
      (if r.y + r.h + fallingSpeed > H - fH
       then (r, 0, true)
       else ({ r with y := r.y + fallingSpeed }, fallingSpeed,
         if grounded && keyUp then false else grounded)) := by
  subst hv1
  have hng : ¬((if grounded && keyUp then -jumpSpeed else vy) + gravity > 0) :=
    not_lt.mpr hle
  simp only [vertStep, hfind, hmov, if_true, decide_eq_false hng]
  by_cases hfl : r.y + r.h + fallingSpeed > H - fH
  · simp [hfl]
  · simp [hfl]

/-- The moving block of the C10 witness, contacted mid-air. -/
def blockC10w : Block := ⟨⟨100, 90, 50, 50⟩, false, true, false⟩

/-- The C10 witness player rectangle, far above the floor. -/
def rectC10w : Rect := ⟨100, 100, 40, 70⟩

/-- C10 witness: a player moving upward mid-air into a falling block is
pushed down by the fall speed without being grounded. -/
theorem vert_block_push_witness :
    (((if (false && false : Bool) then -jumpSpeed else (-10 : ℚ)) + gravity ≤ 0) ∧
      [blockC10w].find? (fun b' =>
        Rect.intersectsb
          { rectC10w with y := rectC10w.y +
              ((if (false && false : Bool) then -jumpSpeed else (-10 : ℚ)) + gravity) }
          b'.rect) = some blockC10w ∧
      blockC10w.moving = true) ∧
    vertStep 600 80 false [blockC10w] rectC10w (-10) false =
      (if rectC10w.y + rectC10w.h + fallingSpeed > 600 - 80
       then (rectC10w, 0, true)
       else ({ rectC10w with y := rectC10w.y + fallingSpeed }, fallingSpeed,
         if (false && false : Bool) then false else false)) :=
  ⟨⟨by decide, by decide, rfl⟩,
    vert_block_push 600 80 false [blockC10w] rectC10w (-10) false blockC10w
      ((if (false && false : Bool) then -jumpSpeed else (-10 : ℚ)) + gravity) rfl
      (by decide) (by decide) rfl⟩

/-! ## C2: firing gate -/

/-- The live (flying, not destroyed) previous projectile of the C2
counterexample. -/
def eggC2 : Egg := ⟨⟨300, 300, 50, 50⟩, 20, -20, false, EggAnim.notStarted⟩

/-- The C2 counterexample player, holding the live projectile. -/
def playerC2 : Player := ⟨⟨100, 450, 40, 70⟩, 0, true, true, false, some eggC2⟩

/-- Fire pressed with the cooldown elapsed. -/
def inputsC2 : Inputs := ⟨true, false, false, false, true, false⟩

/-- C2 counterexample: although the previous projectile is still live
(present, not destroyed, explosion not started), a fire press with the
cooldown elapsed replaces it with a freshly spawned projectile — the slot
afterwards holds the fresh egg one tick into its flight, not the old egg's
continuation, so the fire request was not rejected as the claim demands. -/
theorem fire_not_gated_on_egg :
    (eggC2.destroyed = false ∧ animIsStarted eggC2.anim = false) ∧
    (playerUpdate 400 600 80 inputsC2 playerC2 []).1.egg =
      some ((eggUpdate false 400 (spawnEgg 120 450 true) []).1) ∧
    (playerUpdate 400 600 80 inputsC2 playerC2 []).1.egg ≠
      some ((eggUpdate false 400 eggC2 []).1) := by
  decide

/-- C2 (amended): in the richer Tapioca variant a fire press spawns a new
projectile if and only if the cooldown timer has elapsed, regardless of
the previous projectile's state: when `KeyZ` is down and the timer has
reached zero, a fresh projectile replaces whatever the slot held and is
updated once this tick (dropped if already destroyed); when the key is not
down or the timer has not elapsed, nothing is spawned — the slot evolves
purely by updating the existing projectile (staying empty if empty);
consequently at most one projectile per player exists at any time. -/
theorem fire_replaces_egg (W H fH : ℚ) (inp : Inputs) (p : Player)
    (bs : List Block) :
    ((inp.keyZ && inp.eggTimerZero) = true →
      (playerUpdate W H fH inp p bs).1.egg =
        (if (eggUpdate inp.animFired W
              (spawnEgg (p.rect.x + p.rect.w / 2) p.rect.y p.facingRight) bs).1.destroyed
         then none
         else some (eggUpdate inp.animFired W
              (spawnEgg (p.rect.x + p.rect.w / 2) p.rect.y p.facingRight) bs).1)) ∧
    ((inp.keyZ && inp.eggTimerZero) = false →
      (playerUpdate W H fH inp p bs).1.egg =
        (match p.egg with
         | none => none
         | some e =>
             if (eggUpdate inp.animFired W e bs).1.destroyed then none
             else some (eggUpdate inp.animFired W e bs).1)) ∧
    ∀ q : Player, q.egg.toList.length ≤ 1 := by
  refine ⟨?_, ?_, ?_⟩
  · intro h
    simp [playerUpdate, h]
  · intro h
    cases hegg : p.egg <;> simp [playerUpdate, h, hegg]
  · intro q; cases q.egg <;> simp

/-- Fire pressed while the cooldown has not yet elapsed. -/
def inputsC2n : Inputs := ⟨true, false, false, false, false, false⟩

/-- C2 witness: a fire press with the cooldown not elapsed spawns nothing
— the live previous projectile simply continues its flight. -/
theorem fire_replaces_egg_witness :
    (inputsC2n.keyZ && inputsC2n.eggTimerZero) = false ∧
    (playerUpdate 400 600 80 inputsC2n playerC2 []).1.egg =
      (match playerC2.egg with
       | none => none
       | some e =>
           if (eggUpdate inputsC2n.animFired 400 e []).1.destroyed then none
           else some (eggUpdate inputsC2n.animFired 400 e []).1) :=
  ⟨rfl, (fire_replaces_egg 400 600 80 inputsC2n playerC2 []).2.1 rfl⟩

end Tapioca
